import Mathlib

/-!
Shallow embedding of `nonstd::any` (src/include/nonstd/any.hpp).

The container is modelled by a two-field record mirroring the C++ members:
a buffer (`buf`, the live object currently constructed inside the fixed-size
storage, or `none` when uninitialized) and a nullable descriptor reference
(`model`).  Values of contained types are abstracted to a natural-number
payload together with an object identity (`oid`), which lets in-place
assignment (object preserved, value overwritten) be distinguished from
destroy-and-reconstruct (fresh object).  A concrete C++ type is modelled by
`Ty`, which records the traits that the template specializations of
`is_copyable` / `is_movable` inspect: a base type with its four special
member availabilities, a const-qualified type, and a `std::vector`.
Exceptions escaping an operation are modelled by a `threw` flag on the
operation's result; a contained type's constructor that may throw is
modelled by an `Option Nat` argument (the constructed payload, or `none`
when the constructor throws).  The moved-from payload that a contained
type's move operation leaves behind in the source is modelled by an
arbitrary `residue` function, quantified in the theorems.
-/

namespace NonstdAny

/-- `any_detail::internal_storage_size` (two 64-bit pointers). -/
def internal_storage_size : Nat := 16

/-- `any_detail::internal_storage_alignment`. -/
def internal_storage_alignment : Nat := 16

/-- A non-template concrete C++ type: its `typeid` token, `sizeof`,
`alignof`, and the availability of the four special members queried by the
`std::is_*` traits. -/
structure BaseType where
  id : Nat
  size : Nat
  align : Nat
  copyCtor : Bool
  copyAsgn : Bool
  moveCtor : Bool
  moveAsgn : Bool
deriving DecidableEq, Repr

/-- The shapes of types distinguished by the template specializations of
`any_detail::is_copyable` / `is_movable`: a base type, a const-qualified
type, and `std::vector<elem, Alloc>` (with its own id, size, alignment). -/
inductive Ty where
  | base : BaseType → Ty
  | constQ : Ty → Ty
  | vec : Ty → Nat → Nat → Nat → Ty
deriving DecidableEq, Repr

/-- `any_detail::is_copyable<T>`: primary template requires copy
constructible and copy assignable; `is_copyable<T const> = is_copyable<T>`;
`is_copyable<std::vector<T, Alloc>> = is_copyable<T>`. -/
def is_copyable : Ty → Bool
  | .base b => b.copyCtor && b.copyAsgn
  | .constQ t => is_copyable t
  | .vec e _ _ _ => is_copyable e

/-- `any_detail::is_movable<T>`: primary template requires move
constructible and move assignable; `is_movable<T const> = false`;
`is_movable<std::vector<T, Alloc>> = is_movable<T>`. -/
def is_movable : Ty → Bool
  | .base b => b.moveCtor && b.moveAsgn
  | .constQ _ => false
  | .vec e _ _ _ => is_movable e

/-- `sizeof(T)`.  Const qualification does not change size. -/
def tySize : Ty → Nat
  | .base b => b.size
  | .constQ t => tySize t
  | .vec _ _ s _ => s

/-- `alignof(T)`. -/
def tyAlign : Ty → Nat
  | .base b => b.align
  | .constQ t => tyAlign t
  | .vec _ _ _ a => a

/-- The `typeid` token.  `typeid` ignores cv-qualification, so a
const-qualified type has the token of its underlying type. -/
def tyId : Ty → Nat
  | .base b => b.id
  | .constQ t => tyId t
  | .vec _ i _ _ => i

/-- `std::decay_t<T>` restricted to the object types modelled here:
it strips top-level const qualification. -/
def decay : Ty → Ty
  | .constQ t => decay t
  | .base b => .base b
  | .vec e i s a => .vec e i s a

/-- `any_detail::can_store_internally<T>`: movable, and size and alignment
fit within the fixed internal buffer. -/
def can_store_internally (t : Ty) : Bool :=
  is_movable t
    && decide (tySize t ≤ internal_storage_size)
    && decide (tyAlign t ≤ internal_storage_alignment)

/-- A `storage_model` descriptor instance: the concrete type it was
instantiated for, which of the two implementations it is
(`internal_storage<T>` vs `external_storage<T>`), and an instance id
distinguishing duplicate static instances that failed to merge across
translation units (the canonical instance has `instId = 0`). -/
structure StorageModel where
  ty : Ty
  internal : Bool
  instId : Nat
deriving DecidableEq, Repr

/-- `any::model_of<T>()`: decays `T`, then returns the canonical per-type
static descriptor, choosing `internal_storage` exactly when
`can_store_internally` holds. -/
def model_of (t : Ty) : StorageModel :=
  let u := decay t
  { ty := u, internal := can_store_internally u, instId := 0 }

/-- A live object inside a container's buffer: an object identity (stable
across assignment to the object, fresh on construction) and its payload. -/
structure Cell where
  oid : Nat
  val : Nat
deriving DecidableEq, Repr

/-- The members of `struct any`: the fixed-size buffer (tracking the live
object currently constructed in it, if any) and the nullable descriptor
pointer `model`. -/
structure AnyRep where
  buf : Option Cell
  model : Option StorageModel
deriving DecidableEq, Repr

/-- The state of a default-constructed (empty) container. -/
def emptyAny : AnyRep := { buf := none, model := none }

/-- Well-formed container states: the invariant that the descriptor is
non-null iff the buffer holds a live object. -/
def wf (a : AnyRep) : Bool := a.model.isSome == a.buf.isSome

/-- `any::clear()`: if a descriptor is set, destroy the held value via
`model->free(storage)` and null the descriptor; otherwise do nothing. -/
def clear (a : AnyRep) : AnyRep :=
  match a.model with
  | some _ => emptyAny
  | none => a

/-- `any::empty()`. -/
def empty (a : AnyRep) : Bool := a.model.isNone

/-- The token of `typeid(void)`. -/
def voidTypeId : Nat := 0

/-- `any::type()`: the held descriptor's type token, or `typeid(void)`
when empty. -/
def typeTok (a : AnyRep) : Nat :=
  match a.model with
  | some m => tyId m.ty
  | none => voidTypeId

/-- The payload of the live object in the buffer (reading the buffer is
only meaningful when a live object is present). -/
def held_val (a : AnyRep) : Nat :=
  match a.buf with
  | some c => c.val
  | none => 0

/-- Result of an operation that may let an exception escape: whether it
threw, and the container state afterwards. -/
structure OpResult where
  threw : Bool
  state : AnyRep
deriving DecidableEq, Repr

/-- The two exception kinds thrown by the container. -/
inductive AnyError where
  | castMismatch
  | copyUnsupported
deriving DecidableEq, Repr

/-- `any::emplace<T>(args...)`: decay `T`, `clear()`, construct the new
value in storage (inline when `can_store_internally`, otherwise behind a
heap `unique_ptr`; `ctor` is `none` when the value's constructor throws),
and only then publish the descriptor.  On a throw the descriptor has not
been assigned, so the container stays as `clear()` left it. -/
def emplace (t : Ty) (oid : Nat) (ctor : Option Nat) (a : AnyRep) : OpResult :=
  let u := decay t
  let a1 := clear a
  match ctor with
  | none => { threw := true, state := a1 }
  | some v =>
      { threw := false
        state := { buf := some { oid := oid, val := v }, model := some (model_of u) } }

/-- `any::try_cast<T>()`: null when empty; null when the descriptor is not
the canonical one for `decay_t<T>` and the type token also differs;
otherwise a pointer to the held value. -/
def try_cast (t : Ty) (a : AnyRep) : Option Nat :=
  let u := decay t
  match a.model with
  | none => none
  | some m =>
      if m ≠ model_of u ∧ tyId m.ty ≠ tyId u then none
      else a.buf.map Cell.val

/-- `any::cast<T>()`: dereference `try_cast<T>()`, or throw
`bad_any_cast`. -/
def cast (t : Ty) (a : AnyRep) : Except AnyError Nat :=
  match try_cast t a with
  | some v => .ok v
  | none => .error .castMismatch

/-- `any(any const& x)`: if the source holds a value,
`x.model->copy_construct` into the new buffer (throwing `bad_any_copy`
when the type is not copyable, in which case the object under
construction never comes into existence) and then set the descriptor;
otherwise the new container is empty.  The source is never modified. -/
def copy_construct_any (src : AnyRep) (oid : Nat) : OpResult :=
  match src.model with
  | none => { threw := false, state := emptyAny }
  | some m =>
      if is_copyable m.ty then
        { threw := false
          state := { buf := src.buf.map fun c => { oid := oid, val := c.val }
                     model := some m } }
      else { threw := true, state := emptyAny }

/-- `any::operator=(any const& x)` acting on `dst`: if the source holds a
value and the descriptors are pointer-equal, `model->copy_assign` in place
(value overwritten, object identity kept; throws `bad_any_copy` before
modifying anything when the type is not copyable); if the descriptors
differ, `clear()` then `copy_construct` a fresh object and publish the
descriptor (a `bad_any_copy` escaping here leaves the cleared
destination); if the source is empty, `clear()`.  The source is never
modified. -/
def copy_assign_any (dst src : AnyRep) (oid : Nat) : OpResult :=
  match src.model with
  | none => { threw := false, state := clear dst }
  | some m =>
      if dst.model = src.model then
        if is_copyable m.ty then
          { threw := false
            state := { dst with
                       buf := dst.buf.map fun c => { oid := c.oid, val := held_val src } } }
        else { threw := true, state := dst }
      else
        let d1 := clear dst
        if is_copyable m.ty then
          { threw := false
            state := { buf := src.buf.map fun c => { oid := oid, val := c.val }
                       model := some m } }
        else { threw := true, state := d1 }

/-- `any(any&& x)`: if the source holds a value, `move_construct` into the
new buffer (the new object receives the source's payload; the source's
object is left holding a moved-from `residue`), copy the descriptor, then
`x.clear()`.  Returns the constructed container and the source
afterwards. -/
def move_construct_any (src : AnyRep) (oid : Nat) (residue : Nat → Nat) :
    AnyRep × AnyRep :=
  match src.model with
  | none => (emptyAny, src)
  | some m =>
      let dstNew : AnyRep :=
        { buf := src.buf.map fun c => { oid := oid, val := c.val }, model := some m }
      let srcMoved : AnyRep :=
        { src with buf := src.buf.map fun c => { oid := c.oid, val := residue c.val } }
      (dstNew, clear srcMoved)

/-- The body of `any::operator=(any&& x)` for `this ≠ &x`: same-descriptor
sources are `move_assign`ed in place, otherwise `clear()` then
`move_construct` with the descriptor published after; in either case the
source is then cleared.  An empty source just clears the destination.
Returns the destination and the source afterwards. -/
def move_assign_pair (dst src : AnyRep) (oid : Nat) (residue : Nat → Nat) :
    AnyRep × AnyRep :=
  match src.model with
  | none => (clear dst, src)
  | some m =>
      if dst.model = src.model then
        let dst1 : AnyRep :=
          { dst with buf := dst.buf.map fun c => { oid := c.oid, val := held_val src } }
        let src1 : AnyRep :=
          { src with buf := src.buf.map fun c => { oid := c.oid, val := residue c.val } }
        (dst1, clear src1)
      else
        let _ := clear dst
        let dst1 : AnyRep :=
          { buf := src.buf.map fun c => { oid := oid, val := c.val }, model := some m }
        let src1 : AnyRep :=
          { src with buf := src.buf.map fun c => { oid := c.oid, val := residue c.val } }
        (dst1, clear src1)

/-- `any::operator=(any&& x)` over a memory of containers addressed by
natural numbers, with the `this != &x` identity check: self-assignment
does nothing at all. -/
def move_assign_op (mem : Nat → AnyRep) (i j : Nat) (oid : Nat)
    (residue : Nat → Nat) : Nat → AnyRep :=
  if i = j then mem
  else
    let r := move_assign_pair (mem i) (mem j) oid residue
    fun k => if k = i then r.1 else if k = j then r.2 else mem k

/-! ### Helper lemmas -/

theorem decay_decay (t : Ty) : decay (decay t) = decay t := by
  induction t with
  | base b => rfl
  | constQ u ih => simpa [decay] using ih
  | vec e i s a _ => rfl

theorem tyId_decay (t : Ty) : tyId (decay t) = tyId t := by
  induction t with
  | base b => rfl
  | constQ u ih => simpa [decay, tyId] using ih
  | vec e i s a _ => rfl

theorem model_of_decay (t : Ty) : model_of (decay t) = model_of t := by
  simp [model_of, decay_decay]

theorem clear_model_none (a : AnyRep) (h : a.model = none) : clear a = a := by
  simp [clear, h]

theorem clear_model_some (a : AnyRep) {m : StorageModel} (h : a.model = some m) :
    clear a = emptyAny := by
  simp [clear, h]

/-- Sample concrete base types used by witnesses and counterexamples. -/
def tInt : Ty := .base { id := 1, size := 4, align := 4
                         copyCtor := true, copyAsgn := true
                         moveCtor := true, moveAsgn := true }

/-- A movable but non-copyable concrete type (deleted copy operations). -/
def tNoCopy : Ty := .base { id := 2, size := 8, align := 8
                            copyCtor := false, copyAsgn := false
                            moveCtor := true, moveAsgn := true }

/-- A copyable, movable type too large for the internal buffer. -/
def tBig : Ty := .base { id := 3, size := 64, align := 8
                         copyCtor := true, copyAsgn := true
                         moveCtor := true, moveAsgn := true }

theorem try_cast_of_holding (t : Ty) (a : AnyRep) (m : StorageModel) (c : Cell)
    (hm : a.model = some m) (hc : a.buf = some c) :
    try_cast t a =
      if m = model_of (decay t) ∨ tyId m.ty = tyId t then some c.val else none := by
  unfold try_cast
  rw [hm]
  simp only [hc]
  have hiff : (m ≠ model_of (decay t) ∧ tyId m.ty ≠ tyId (decay t)) ↔
      ¬(m = model_of (decay t) ∨ tyId m.ty = tyId t) := by
    rw [tyId_decay, not_or]
  by_cases h1 : m = model_of (decay t) ∨ tyId m.ty = tyId t
  · rw [if_pos h1, if_neg (by rw [hiff]; exact not_not_intro h1)]
    rfl
  · rw [if_neg h1, if_pos (hiff.mpr h1)]

theorem try_cast_of_empty (t : Ty) (a : AnyRep) (hm : a.model = none) :
    try_cast t a = none := by
  simp [try_cast, hm]

/-! ### Claim theorems -/

/-- C1: for a copyable, movable type `t` and any value `v`, emplacing `v`
and then casting back to `t` yields exactly `v`: `try_cast` returns the
stored value and `cast` succeeds with it, whichever storage strategy `t`
selects. -/
theorem C1_emplace_cast_roundtrip (t : Ty) (v oid : Nat) (a : AnyRep)
    (hc : is_copyable t = true) (hm : is_movable t = true) :
    try_cast t (emplace t oid (some v) a).state = some v ∧
    cast t (emplace t oid (some v) a).state = Except.ok v := by
  have hstate : (emplace t oid (some v) a).state =
      { buf := some { oid := oid, val := v }, model := some (model_of (decay t)) } := rfl
  have htc : try_cast t (emplace t oid (some v) a).state = some v := by
    rw [try_cast_of_holding t _ (model_of (decay t)) ⟨oid, v⟩ (by rw [hstate]) (by rw [hstate])]
    rw [if_pos (Or.inl rfl)]
  exact ⟨htc, by rw [cast, htc]⟩

theorem C1_witness :
    try_cast tInt (emplace tInt 7 (some 42) emptyAny).state = some 42 ∧
    cast tInt (emplace tInt 7 (some 42) emptyAny).state = Except.ok 42 :=
  C1_emplace_cast_roundtrip tInt 42 7 emptyAny (by decide) (by decide)

/-- C2: on a well-formed container, `try_cast t` yields a non-null result
exactly when the container is non-empty and the held descriptor matches
`t` (pointer identity against the canonical descriptor, or type-token
equality as fallback); the result, when non-null, points at the held
value; it returns `none` otherwise (including on an empty container); and
`cast t` throws Cast Mismatch exactly when `try_cast t` returns null,
succeeding with the same value otherwise. -/
theorem C2_try_cast_cast_contract (t : Ty) (a : AnyRep) (hwf : wf a = true) :
    ((try_cast t a).isSome = true ↔
        ∃ m, a.model = some m ∧ (m = model_of (decay t) ∨ tyId m.ty = tyId t)) ∧
    (∀ v, try_cast t a = some v → held_val a = v) ∧
    (cast t a = Except.error AnyError.castMismatch ↔ try_cast t a = none) ∧
    (∀ v, cast t a = Except.ok v ↔ try_cast t a = some v) := by
  have main :
      ((try_cast t a).isSome = true ↔
        ∃ m, a.model = some m ∧ (m = model_of (decay t) ∨ tyId m.ty = tyId t)) ∧
      (∀ v, try_cast t a = some v → held_val a = v) := by
    cases hm : a.model with
    | none =>
        rw [try_cast_of_empty t a hm]
        simp
    | some m =>
        have hbuf : ∃ c, a.buf = some c := by
          rw [wf, hm] at hwf
          cases hb : a.buf with
          | none => rw [hb] at hwf; simp at hwf
          | some c => exact ⟨c, rfl⟩
        obtain ⟨c, hc⟩ := hbuf
        rw [try_cast_of_holding t a m c hm hc]
        by_cases h1 : m = model_of (decay t) ∨ tyId m.ty = tyId t
        · rw [if_pos h1]
          refine ⟨⟨fun _ => ⟨m, rfl, h1⟩, fun _ => by simp⟩, ?_⟩
          intro v hv
          have h2 : c.val = v := by injection hv
          simp [held_val, hc, h2]
        · rw [if_neg h1]
          refine ⟨⟨fun h => by simp at h, ?_⟩, ?_⟩
          · rintro ⟨m2, hm2, h2⟩
            injection hm2 with h3
            subst h3
            exact (h1 h2).elim
          · intro v hv
            simp at hv
  refine ⟨main.1, main.2, ?_, ?_⟩
  · cases htc : try_cast t a with
    | none => simp [cast, htc]
    | some v => simp [cast, htc]
  · intro v
    cases htc : try_cast t a with
    | none => simp [cast, htc]
    | some w => simp [cast, htc]

theorem C2_witness :
    wf (emplace tInt 7 (some 5) emptyAny).state = true ∧
    ((try_cast tBig (emplace tInt 7 (some 5) emptyAny).state).isSome = true ↔
        ∃ m, (emplace tInt 7 (some 5) emptyAny).state.model = some m ∧
          (m = model_of (decay tBig) ∨ tyId m.ty = tyId tBig)) :=
  ⟨by decide, (C2_try_cast_cast_contract tBig (emplace tInt 7 (some 5) emptyAny).state
      (by decide)).1⟩

/-- C3: moving a container that holds a value (by move construction, or by
move assignment into any well-formed destination) always leaves the source
fully empty and makes the target hold that value's payload with the
source's descriptor — for every `residue` function, i.e. regardless of
what moved-from state the contained type's own move operation leaves
behind in the source. -/
theorem C3_move_transfers_and_empties (dst src : AnyRep) (oid : Nat)
    (residue : Nat → Nat) (m : StorageModel) (c : Cell)
    (hwd : wf dst = true) (hm : src.model = some m) (hb : src.buf = some c) :
    ((move_construct_any src oid residue).2 = emptyAny ∧
     (move_construct_any src oid residue).1.model = some m ∧
     held_val (move_construct_any src oid residue).1 = c.val) ∧
    ((move_assign_pair dst src oid residue).2 = emptyAny ∧
     (move_assign_pair dst src oid residue).1.model = some m ∧
     held_val (move_assign_pair dst src oid residue).1 = c.val) := by
  constructor
  · refine ⟨?_, ?_, ?_⟩ <;> simp [move_construct_any, hm, hb, held_val, clear]
  · by_cases hdm : dst.model = src.model
    · have hds : dst.model = some m := by rw [hdm, hm]
      have hdb : ∃ cd, dst.buf = some cd := by
        rw [wf, hds] at hwd
        cases hb2 : dst.buf with
        | none => rw [hb2] at hwd; simp at hwd
        | some cd => exact ⟨cd, rfl⟩
      obtain ⟨cd, hcd⟩ := hdb
      refine ⟨?_, ?_, ?_⟩ <;>
        simp [move_assign_pair, hm, hb, hcd, hds, hdm, held_val, clear]
    · have hdm2 : ¬dst.model = some m := fun h => hdm (h.trans hm.symm)
      refine ⟨?_, ?_, ?_⟩ <;>
        simp [move_assign_pair, hm, hb, hdm2, held_val, clear]

theorem C3_witness :
    wf emptyAny = true ∧
    (move_construct_any (emplace tInt 3 (some 8) emptyAny).state 4 (fun _ => 0)).2
      = emptyAny ∧
    held_val (move_construct_any (emplace tInt 3 (some 8) emptyAny).state 4
      (fun _ => 0)).1 = 8 :=
  ⟨by decide,
   (C3_move_transfers_and_empties emptyAny (emplace tInt 3 (some 8) emptyAny).state
      4 (fun _ => 0) (model_of tInt) ⟨3, 8⟩ (by decide) (by decide) (by decide)).1.1,
   (C3_move_transfers_and_empties emptyAny (emplace tInt 3 (some 8) emptyAny).state
      4 (fun _ => 0) (model_of tInt) ⟨3, 8⟩ (by decide) (by decide) (by decide)).1.2.2⟩

/-- Concrete copy-unsupported scenario: a destination holding an `int`-like
value and a source holding a movable but non-copyable value. -/
def c4dst : AnyRep := { buf := some ⟨1, 10⟩, model := some (model_of tInt) }

/-- The source container of the copy-unsupported scenario. -/
def c4src : AnyRep := { buf := some ⟨2, 20⟩, model := some (model_of tNoCopy) }

/-- C4 counterexample: copy-assigning a container holding a non-copyable
type into a destination that holds a different type throws Copy
Unsupported, but the destination is NOT left in its pre-copy state — it
has been cleared (it is empty afterwards), contradicting the claim that
the destination is unchanged. -/
theorem C4_counterexample :
    (copy_assign_any c4dst c4src 9).threw = true ∧
    (copy_assign_any c4dst c4src 9).state ≠ c4dst ∧
    (copy_assign_any c4dst c4src 9).state = emptyAny := by decide

/-- C4 (amended): copying from a container holding a non-copyable type
throws Copy Unsupported; the source is never written by the copy
operations (they take it by const reference, and indeed no result state
of `copy_assign_any`/`copy_construct_any` modifies `src`); the destination
is unchanged when the same-descriptor in-place path is taken, is left
cleared (empty) when it held a different descriptor, and a failed copy
construction yields no constructed object — never a partially-constructed
state. -/
theorem C4_copy_unsupported_outcome (dst src : AnyRep) (oid : Nat)
    (m : StorageModel) (hm : src.model = some m)
    (hnc : is_copyable m.ty = false) :
    ((copy_assign_any dst src oid).threw = true ∧
     ((copy_assign_any dst src oid).state = dst ∨
      (copy_assign_any dst src oid).state = emptyAny) ∧
     (dst.model = src.model → (copy_assign_any dst src oid).state = dst) ∧
     (dst.model ≠ src.model → (copy_assign_any dst src oid).state = clear dst)) ∧
    ((copy_construct_any src oid).threw = true ∧
     (copy_construct_any src oid).state = emptyAny) := by
  by_cases hdm : dst.model = src.model
  · refine ⟨⟨?_, ?_, ?_, ?_⟩, ?_, ?_⟩ <;>
      simp [copy_assign_any, copy_construct_any, hm, hdm, hnc]
  · have hdm2 : ¬dst.model = some m := fun h => hdm (h.trans hm.symm)
    have hstep : (copy_assign_any dst src oid).state = clear dst := by
      simp [copy_assign_any, hm, hdm2, hnc]
    refine ⟨⟨?_, ?_, ?_, ?_⟩, ?_, ?_⟩
    · simp [copy_assign_any, hm, hdm2, hnc]
    · rw [hstep]
      cases hmd : dst.model with
      | none => exact Or.inl (clear_model_none dst hmd)
      | some md => exact Or.inr (clear_model_some dst hmd)
    · intro h
      exact absurd h hdm
    · intro _
      exact hstep
    · simp [copy_construct_any, hm, hnc]
    · simp [copy_construct_any, hm, hnc]

theorem C4_amended_witness :
    (copy_assign_any c4dst c4src 9).threw = true ∧
    ((copy_assign_any c4dst c4src 9).state = c4dst ∨
     (copy_assign_any c4dst c4src 9).state = emptyAny) :=
  ⟨(C4_copy_unsupported_outcome c4dst c4src 9 (model_of tNoCopy)
      (by decide) (by decide)).1.1,
   (C4_copy_unsupported_outcome c4dst c4src 9 (model_of tNoCopy)
      (by decide) (by decide)).1.2.1⟩

/-- C5: if the value's constructor throws during `emplace`, the container
is left empty — the descriptor reference is null and no live value is in
the buffer — because the descriptor is published only after construction;
on success the container holds the constructed value under `t`'s canonical
descriptor. -/
theorem C5_emplace_exception_leaves_empty (t : Ty) (oid : Nat) (a : AnyRep)
    (hwf : wf a = true) :
    ((emplace t oid none a).threw = true ∧
     (emplace t oid none a).state.model = none ∧
     (emplace t oid none a).state.buf = none) ∧
    (∀ v, (emplace t oid (some v) a).threw = false ∧
      (emplace t oid (some v) a).state.model = some (model_of t) ∧
      held_val (emplace t oid (some v) a).state = v) := by
  constructor
  · have hstate : (emplace t oid none a).state = clear a := rfl
    refine ⟨rfl, ?_, ?_⟩
    · rw [hstate]
      cases hmd : a.model with
      | none => rw [clear_model_none a hmd]; exact hmd
      | some md => rw [clear_model_some a hmd]; rfl
    · rw [hstate]
      cases hmd : a.model with
      | none =>
          rw [clear_model_none a hmd]
          rw [wf, hmd] at hwf
          cases hb : a.buf with
          | none => rfl
          | some c => rw [hb] at hwf; simp at hwf
      | some md => rw [clear_model_some a hmd]; rfl
  · intro v
    refine ⟨rfl, ?_, rfl⟩
    show some (model_of (decay t)) = some (model_of t)
    rw [model_of_decay]

theorem C5_witness :
    wf emptyAny = true ∧
    (emplace tNoCopy 1 none emptyAny).threw = true ∧
    (emplace tNoCopy 1 none emptyAny).state.model = none ∧
    (emplace tNoCopy 1 none emptyAny).state.buf = none :=
  ⟨by decide,
   (C5_emplace_exception_leaves_empty tNoCopy 1 emptyAny (by decide)).1.1,
   (C5_emplace_exception_leaves_empty tNoCopy 1 emptyAny (by decide)).1.2.1,
   (C5_emplace_exception_leaves_empty tNoCopy 1 emptyAny (by decide)).1.2.2⟩

theorem empty_clear (a : AnyRep) : empty (clear a) = true := by
  cases hmd : a.model with
  | none => rw [clear_model_none a hmd]; simp [empty, hmd]
  | some md => rw [clear_model_some a hmd]; rfl

/-- C6: when the destination already holds a value under the same
descriptor instance as the source, copy assignment and move assignment act
in place through `copy_assign`/`move_assign`: the destination keeps its
existing object (its `oid` is unchanged) and only the payload is
overwritten with the source's.  Move assignment does so for every
contained type (the in-place move path consults no copyability trait);
copy assignment does so whenever the type is copyable (otherwise it throws
without assigning, see C4).  The clear-then-construct path, which produces
a freshly constructed object (carrying the fresh `oid`), is taken only
when the descriptors differ. -/
theorem C6_same_descriptor_assigns_in_place (dst src : AnyRep)
    (fresh : Nat) (residue : Nat → Nat) (m : StorageModel) (c cs : Cell)
    (hdm : dst.model = some m) (hsm : src.model = some m)
    (hdb : dst.buf = some c) (hsb : src.buf = some cs) :
    ((move_assign_pair dst src fresh residue).1.model = some m ∧
     (move_assign_pair dst src fresh residue).1.buf = some ⟨c.oid, cs.val⟩) ∧
    (is_copyable m.ty = true →
      (copy_assign_any dst src fresh).state.model = some m ∧
      (copy_assign_any dst src fresh).state.buf = some ⟨c.oid, cs.val⟩) ∧
    (∀ dst2 : AnyRep, dst2.model ≠ src.model →
      (move_assign_pair dst2 src fresh residue).1.buf = some ⟨fresh, cs.val⟩ ∧
      (is_copyable m.ty = true →
        (copy_assign_any dst2 src fresh).state.buf = some ⟨fresh, cs.val⟩)) := by
  refine ⟨⟨?_, ?_⟩, fun hcpy => ⟨?_, ?_⟩, ?_⟩
  · simp [move_assign_pair, hsm, hdm, hdb, held_val, hsb]
  · simp [move_assign_pair, hsm, hdm, hdb, held_val, hsb]
  · simp [copy_assign_any, hsm, hdm, hcpy, hdb, held_val, hsb]
  · simp [copy_assign_any, hsm, hdm, hcpy, hdb, held_val, hsb]
  · intro dst2 hne
    have hne2 : ¬dst2.model = some m := fun h => hne (h.trans hsm.symm)
    exact ⟨by simp [move_assign_pair, hsm, hne2, hsb],
           fun hcpy => by simp [copy_assign_any, hsm, hne2, hcpy, hsb]⟩

/-- Destination of the empty-source assignment witness scenario. -/
def c6dst : AnyRep := { buf := some ⟨1, 10⟩, model := some (model_of tInt) }

/-- Source of the empty-source assignment witness scenario. -/
def c6src : AnyRep := { buf := some ⟨2, 20⟩, model := some (model_of tInt) }

/-- Destination holding a movable but non-copyable value, for the
in-place move-assignment witness. -/
def c6mdst : AnyRep := { buf := some ⟨1, 10⟩, model := some (model_of tNoCopy) }

/-- Source holding a movable but non-copyable value under the same
descriptor as `c6mdst`. -/
def c6msrc : AnyRep := { buf := some ⟨2, 20⟩, model := some (model_of tNoCopy) }

theorem C6_witness :
    ((move_assign_pair c6mdst c6msrc 99 (fun _ => 0)).1.model
        = some (model_of tNoCopy) ∧
     (move_assign_pair c6mdst c6msrc 99 (fun _ => 0)).1.buf = some ⟨1, 20⟩) ∧
    ((copy_assign_any c6dst c6src 99).state.model = some (model_of tInt) ∧
     (copy_assign_any c6dst c6src 99).state.buf = some ⟨1, 20⟩) :=
  ⟨(C6_same_descriptor_assigns_in_place c6mdst c6msrc 99 (fun _ => 0)
      (model_of tNoCopy) ⟨1, 10⟩ ⟨2, 20⟩ (by decide) (by decide) (by decide)
      (by decide)).1,
   (C6_same_descriptor_assigns_in_place c6dst c6src 99 (fun _ => 0)
      (model_of tInt) ⟨1, 10⟩ ⟨2, 20⟩ (by decide) (by decide) (by decide)
      (by decide)).2.1 (by decide)⟩

/-- C7: a type is eligible for inline storage exactly when it is movable
and its size and alignment fit the fixed internal buffer; a
const-qualified type is never movable, so it is never inline-eligible and
its descriptor uses external storage; `emplace` publishes the canonical
descriptor, whose storage choice is exactly `can_store_internally` of the
decayed type. -/
theorem C7_inline_storage_criterion (t u : Ty) (v oid : Nat) (a : AnyRep) :
    (can_store_internally t =
      (is_movable t && decide (tySize t ≤ internal_storage_size)
        && decide (tyAlign t ≤ internal_storage_alignment))) ∧
    (is_movable (Ty.constQ u) = false) ∧
    (can_store_internally (Ty.constQ u) = false) ∧
    ((emplace t oid (some v) a).state.model = some (model_of t) ∧
     (model_of t).internal = can_store_internally (decay t)) := by
  refine ⟨rfl, rfl, ?_, ?_, rfl⟩
  · simp [can_store_internally, is_movable]
  · show some (model_of (decay t)) = some (model_of t)
    rw [model_of_decay]

/-- C8: `clear` always leaves the container empty and is idempotent —
clearing an already-cleared (or already-empty) container changes nothing —
and after clearing, `empty()` is true and `type()` is the void token. -/
theorem C8_clear_idempotent_and_empties (a : AnyRep) :
    clear (clear a) = clear a ∧
    empty (clear a) = true ∧
    typeTok (clear a) = voidTypeId ∧
    clear emptyAny = emptyAny := by
  cases hmd : a.model with
  | none =>
      have h := clear_model_none a hmd
      rw [h]
      exact ⟨h, by simp [empty, hmd], by simp [typeTok, hmd], rfl⟩
  | some md =>
      have h := clear_model_some a hmd
      rw [h]
      exact ⟨rfl, rfl, rfl, rfl⟩

/-- C9: self-move-assignment is a complete no-op: the `this != &x`
identity check makes `a = std::move(a)` leave the whole memory of
containers unchanged, whatever `a` holds. -/
theorem C9_self_move_assignment_noop (mem : Nat → AnyRep) (i oid : Nat)
    (residue : Nat → Nat) :
    move_assign_op mem i i oid residue = mem := by
  rw [move_assign_op, if_pos rfl]

/-- C10: copy-assigning or move-assigning an empty container into any
destination clears the destination (its held value, if any, is destroyed
and it becomes empty), throws nothing, and leaves the empty source
untouched. -/
theorem C10_assign_from_empty_clears (dst src : AnyRep) (oid : Nat)
    (residue : Nat → Nat) (h : src.model = none) :
    (copy_assign_any dst src oid).threw = false ∧
    (copy_assign_any dst src oid).state = clear dst ∧
    empty (copy_assign_any dst src oid).state = true ∧
    (move_assign_pair dst src oid residue).1 = clear dst ∧
    empty (move_assign_pair dst src oid residue).1 = true ∧
    (move_assign_pair dst src oid residue).2 = src := by
  refine ⟨?_, ?_, ?_, ?_, ?_, ?_⟩ <;>
    simp [copy_assign_any, move_assign_pair, h, empty_clear]

theorem C10_witness :
    (copy_assign_any c6dst emptyAny 5).state = clear c6dst ∧
    empty (copy_assign_any c6dst emptyAny 5).state = true :=
  ⟨(C10_assign_from_empty_clears c6dst emptyAny 5 (fun _ => 0) (by decide)).2.1,
   (C10_assign_from_empty_clears c6dst emptyAny 5 (fun _ => 0) (by decide)).2.2.1⟩

end NonstdAny
